import Mathlib

deriving instance DecidableEq for Except

/-
  Verification of the LLVM-to-Triton AST lifter
  (src/libtriton/ast/llvm/llvmToTriton.cpp).

  The lifter recursively translates an LLVM value graph (arguments,
  constant integers, instructions) into Triton AST nodes.  We embed the
  C++ translation `LLVMToTriton::do_convert` / `LLVMToTriton::convert`
  shallowly: the LLVM value space becomes an inductive type, the Triton
  AST context becomes a free term algebra of builder constructors, C++
  exceptions become an `Except` error monad, and the C++ recursion is
  bounded by an explicit fuel parameter (the C++ recursion depth equals
  the operand-dependency chain length; fuel plays no semantic role in any
  statement below, which always relates fuel+1 at a node to fuel at its
  children).

  A `SharedAbstractNode` is a shared pointer and may be null: we embed it
  as `Option AstNode`, with `none` standing for a null pointer.  Passing
  a null child to a builder or calling `isLogical()` on it dereferences
  the null pointer, which we surface as a distinguished `ub` error.
-/

namespace LLVMToTriton

/-- Triton AST nodes, one constructor per AstContext builder the lifter
calls.  The Expression Context of the spec owns construction/interning;
since interning does not change the tree shape we model the builders as
free constructors of a term algebra. -/
inductive AstNode where
  | bv (value : Nat) (size : Nat)
  | variableNode (name : String)
  | bvadd (l r : AstNode)
  | bvsub (l r : AstNode)
  | bvmul (l r : AstNode)
  | bvsdiv (l r : AstNode)
  | bvudiv (l r : AstNode)
  | bvsrem (l r : AstNode)
  | bvurem (l r : AstNode)
  | bvlshr (l r : AstNode)
  | bvashr (l r : AstNode)
  | bvshl (l r : AstNode)
  | bvand (l r : AstNode)
  | bvor (l r : AstNode)
  | bvxor (l r : AstNode)
  | land (l r : AstNode)
  | lor (l r : AstNode)
  | lxor (l r : AstNode)
  | equal (l r : AstNode)
  | distinct (l r : AstNode)
  | bvuge (l r : AstNode)
  | bvugt (l r : AstNode)
  | bvule (l r : AstNode)
  | bvult (l r : AstNode)
  | bvsge (l r : AstNode)
  | bvsgt (l r : AstNode)
  | bvsle (l r : AstNode)
  | bvslt (l r : AstNode)
  | sx (bits : Nat) (x : AstNode)
  | zx (bits : Nat) (x : AstNode)
  | extract (hi lo : Nat) (x : AstNode)
  | ite (c t e : AstNode)
  | bswap (x : AstNode)
  deriving DecidableEq

/-- Modelled from the spec: the Expression Context's per-node "is this
logically typed" query (`AbstractNode::isLogical`, not under src/).  Per
the spec the logical (boolean-valued) nodes are those produced by the
three logical connectives, equality/distinctness and the eight ordered
comparisons; everything else the lifter builds is bitvector-typed.  Only
the tags of node kinds the lifter actually queries matter below. -/
def AstNode.isLogical : AstNode → Bool
  | .equal _ _ => true
  | .distinct _ _ => true
  | .land _ _ => true
  | .lor _ _ => true
  | .lxor _ _ => true
  | .bvuge _ _ => true
  | .bvugt _ _ => true
  | .bvule _ _ => true
  | .bvult _ _ => true
  | .bvsge _ _ => true
  | .bvsgt _ _ => true
  | .bvsle _ _ => true
  | .bvslt _ _ => true
  | _ => false

/-- Modelled from the spec: the Expression Context's symbol table used by
`AstContext::getVariableNode` (not under src/), mapping declared argument
names to already-registered variable nodes; resolution failure for an
unregistered name propagates verbatim from the context. -/
structure AstContext where
  vars : String → Option AstNode

/-- Modelled from the spec: the context's bitvector "true" constant
(`AstContext::bvtrue`, not under src/), the one-bit literal 1. -/
def AstContext.bvtrue : AstNode := .bv 1 1

/-- Modelled from the spec: the context's bitvector "false" constant
(`AstContext::bvfalse`, not under src/), the one-bit literal 0. -/
def AstContext.bvfalse : AstNode := .bv 0 1

/-- LLVM instruction opcodes.  One constructor per opcode the lifter's
switch names; `unsupported n` stands for any other opcode (numbered `n`
in LLVM's enumeration).  `Call` and `ICmp` instructions are represented
by their own `Value` constructors below, mirroring the `dyn_cast`s at the
top of `do_convert`, so they do not appear here. -/
inductive Opcode where
  | ashr
  | add
  | and
  | lshr
  | mul
  | or
  | ret
  | sdiv
  | sext
  | srem
  | select
  | shl
  | sub
  | trunc
  | udiv
  | urem
  | xor
  | zext
  | unsupported (code : Nat)
  deriving DecidableEq

/-- The LLVM values the lifter inspects, following the `dyn_cast`
partition at the top of `do_convert`: `llvm::Argument` (declared name and
integer bit-width), `llvm::ConstantInt` (stored value and declared
bit-width), a generic `llvm::Instruction` (opcode, result bit-width,
ordered operands), an `llvm::CallInst` (direct callee name, result
bit-width, argument operands), an `llvm::ICmpInst` (predicate code and
operands; its result type is always `i1`), and `otherValue` for any other
`llvm::Value` shape (e.g. a floating-point constant), for which none of
the casts succeed. -/
inductive Value where
  | argument (name : String) (width : Nat)
  | constantInt (value : Nat) (width : Nat)
  | basicInst (op : Opcode) (width : Nat) (operands : List Value)
  | callInst (callee : String) (width : Nat) (args : List Value)
  | icmpInst (pred : Nat) (operands : List Value)
  | otherValue (desc : String)

/-- `getType()->getIntegerBitWidth()` on a value: the declared integer
bit-width of its type.  An `ICmpInst` has type `i1`.  `otherValue` has no
integer type; the lifter only queries widths of SExt/ZExt operands, which
are integers in well-formed IR, so we return 0 there. -/
def Value.bitWidth : Value → Nat
  | .argument _ w => w
  | .constantInt _ w => w
  | .basicInst _ w _ => w
  | .callInst _ w _ => w
  | .icmpInst _ _ => 1
  | .otherValue _ => 0

/-- The outcomes of a conversion other than a node: `astLifting` is
`triton::exceptions::AstLifting` with its message; `variableNotFound` is
the Expression Context's own resolution failure for an unregistered
argument name (modelled from the spec, which says it propagates verbatim
from the context); `ub` marks C++ undefined behavior (dereferencing a
null `SharedAbstractNode`, or `getOperand(i)` past the operand list);
`outOfFuel` is an artifact of the embedding's explicit recursion bound
and appears in no statement below. -/
inductive ConvError where
  | astLifting (msg : String)
  | variableNotFound (name : String)
  | ub (msg : String)
  | outOfFuel
  deriving DecidableEq

/-- Dereference a possibly-null `SharedAbstractNode`: the C++ does this
implicitly whenever a child node is passed to a builder or queried with
`isLogical()`; on a null pointer that is undefined behavior. -/
def deref : Option AstNode → Except ConvError AstNode
  | some n => pure n
  | none => throw (.ub "null SharedAbstractNode dereference")

/-- Prefix test over character lists (`needle` starts `hay`). -/
def chStart : List Char → List Char → Bool
  | [], _ => true
  | _ :: _, [] => false
  | a :: as, b :: bs => a == b && chStart as bs

/-- Substring containment over character lists. -/
def hasSubstr (needle : List Char) : List Char → Bool
  | [] => needle.isEmpty
  | c :: t => chStart needle (c :: t) || hasSubstr needle t

/-- `s.find(pat) != std::string::npos`: does `s` contain `pat`? -/
def nameFind (s pat : String) : Bool :=
  hasSubstr pat.toList s.toList

/-- The byte-swap intrinsic marker the call whitelist searches for. -/
def bswapMarker : String := "llvm.bswap.i"

/-- `llvm::ICmpInst` predicate codes (`llvm::CmpInst::Predicate`). -/
def ICMP_EQ : Nat := 32

/-- Predicate code of `ICMP_NE`. -/
def ICMP_NE : Nat := 33

/-- Predicate code of `ICMP_UGT`. -/
def ICMP_UGT : Nat := 34

/-- Predicate code of `ICMP_UGE`. -/
def ICMP_UGE : Nat := 35

/-- Predicate code of `ICMP_ULT`. -/
def ICMP_ULT : Nat := 36

/-- Predicate code of `ICMP_ULE`. -/
def ICMP_ULE : Nat := 37

/-- Predicate code of `ICMP_SGT`. -/
def ICMP_SGT : Nat := 38

/-- Predicate code of `ICMP_SGE`. -/
def ICMP_SGE : Nat := 39

/-- Predicate code of `ICMP_SLT`. -/
def ICMP_SLT : Nat := 40

/-- Predicate code of `ICMP_SLE`. -/
def ICMP_SLE : Nat := 41

/-- `llvm::ConstantInt::getLimitedValue()`: the constant's value as an
unsigned 64-bit integer, saturating at `UINT64_MAX` when the stored
value does not fit (LLVM `APInt::getLimitedValue` semantics). -/
def getLimitedValue (v : Nat) : Nat := min v (2 ^ 64 - 1)

/-- `LLVMToTriton::do_convert` (llvmToTriton.cpp lines 21-210), with an
explicit recursion bound.  Each case mirrors the corresponding C++ case:
operands are converted left to right, the resulting children are
dereferenced exactly where the C++ passes them to a builder or queries
`isLogical()`, and the C++ `throw` of `AstLifting` becomes `throw
(.astLifting msg)` with the same message.  In the ICmp case a predicate
outside the ten listed codes falls into `default: break` and the
function returns the local `node`, still `nullptr` — embedded as `pure
none` (the throw below that switch is unreachable: an instruction of
opcode ICmp always casts to `ICmpInst`).  `size - csze` in the
SExt/ZExt cases is unsigned 32-bit subtraction; `Nat` subtraction
agrees with it exactly when `csze ≤ size`, the spec's stated
precondition for extensions. -/
def do_convert (actx : AstContext) : Nat → Value → Except ConvError (Option AstNode)
  | 0, _ => throw .outOfFuel
  | fuel + 1, v =>
    match v with
    | .callInst callee _w args =>
      if nameFind callee bswapMarker then
        match args with
        | a0 :: _ => do
          let n0 ← do_convert actx fuel a0
          let n ← deref n0
          pure (some (AstNode.bswap n))
        | [] => throw (.ub "CallInst::getOperand(0): no such operand")
      else
        throw (.astLifting "LLVMToTriton::do_convert(): LLVM call not supported")
    | .icmpInst pred operands =>
      match operands with
      | l :: r :: _ => do
        let LHSo ← do_convert actx fuel l
        let RHSo ← do_convert actx fuel r
        if pred = ICMP_EQ then do
          pure (some (AstNode.equal (← deref LHSo) (← deref RHSo)))
        else if pred = ICMP_NE then do
          pure (some (AstNode.distinct (← deref LHSo) (← deref RHSo)))
        else if pred = ICMP_UGE then do
          pure (some (AstNode.bvuge (← deref LHSo) (← deref RHSo)))
        else if pred = ICMP_UGT then do
          pure (some (AstNode.bvugt (← deref LHSo) (← deref RHSo)))
        else if pred = ICMP_ULE then do
          pure (some (AstNode.bvule (← deref LHSo) (← deref RHSo)))
        else if pred = ICMP_ULT then do
          pure (some (AstNode.bvult (← deref LHSo) (← deref RHSo)))
        else if pred = ICMP_SGE then do
          pure (some (AstNode.bvsge (← deref LHSo) (← deref RHSo)))
        else if pred = ICMP_SGT then do
          pure (some (AstNode.bvsgt (← deref LHSo) (← deref RHSo)))
        else if pred = ICMP_SLE then do
          pure (some (AstNode.bvsle (← deref LHSo) (← deref RHSo)))
        else if pred = ICMP_SLT then do
          pure (some (AstNode.bvslt (← deref LHSo) (← deref RHSo)))
        else
          pure none
      | _ => throw (.ub "ICmpInst::getOperand: no such operand")
    | .basicInst op w operands =>
      match op, operands with
      | .ashr, a :: b :: _ => do
        let LHSo ← do_convert actx fuel a
        let RHSo ← do_convert actx fuel b
        pure (some (AstNode.bvashr (← deref LHSo) (← deref RHSo)))
      | .add, a :: b :: _ => do
        let LHSo ← do_convert actx fuel a
        let RHSo ← do_convert actx fuel b
        pure (some (AstNode.bvadd (← deref LHSo) (← deref RHSo)))
      | .and, a :: b :: _ => do
        let LHSo ← do_convert actx fuel a
        let RHSo ← do_convert actx fuel b
        let LHS ← deref LHSo
        let RHS ← deref RHSo
        if LHS.isLogical && RHS.isLogical then
          pure (some (AstNode.ite (AstNode.land LHS RHS) AstContext.bvtrue AstContext.bvfalse))
        else
          pure (some (AstNode.bvand LHS RHS))
      | .lshr, a :: b :: _ => do
        let LHSo ← do_convert actx fuel a
        let RHSo ← do_convert actx fuel b
        pure (some (AstNode.bvlshr (← deref LHSo) (← deref RHSo)))
      | .mul, a :: b :: _ => do
        let LHSo ← do_convert actx fuel a
        let RHSo ← do_convert actx fuel b
        pure (some (AstNode.bvmul (← deref LHSo) (← deref RHSo)))
      | .or, a :: b :: _ => do
        let LHSo ← do_convert actx fuel a
        let RHSo ← do_convert actx fuel b
        let LHS ← deref LHSo
        let RHS ← deref RHSo
        if LHS.isLogical && RHS.isLogical then
          pure (some (AstNode.ite (AstNode.lor LHS RHS) AstContext.bvtrue AstContext.bvfalse))
        else
          pure (some (AstNode.bvor LHS RHS))
      | .ret, a :: _ => do_convert actx fuel a
      | .sdiv, a :: b :: _ => do
        let LHSo ← do_convert actx fuel a
        let RHSo ← do_convert actx fuel b
        pure (some (AstNode.bvsdiv (← deref LHSo) (← deref RHSo)))
      | .sext, a :: _ => do
        let no ← do_convert actx fuel a
        let n ← deref no
        pure (some (AstNode.sx (w - a.bitWidth) n))
      | .srem, a :: b :: _ => do
        let LHSo ← do_convert actx fuel a
        let RHSo ← do_convert actx fuel b
        pure (some (AstNode.bvsrem (← deref LHSo) (← deref RHSo)))
      | .select, c :: t :: e :: _ => do
        let nifo ← do_convert actx fuel c
        let ntheno ← do_convert actx fuel t
        let nelseo ← do_convert actx fuel e
        let nif ← deref nifo
        let nthen ← deref ntheno
        let nelse ← deref nelseo
        let nif := if nif.isLogical = false then AstNode.equal nif AstContext.bvtrue else nif
        pure (some (AstNode.ite nif nthen nelse))
      | .shl, a :: b :: _ => do
        let LHSo ← do_convert actx fuel a
        let RHSo ← do_convert actx fuel b
        pure (some (AstNode.bvshl (← deref LHSo) (← deref RHSo)))
      | .sub, a :: b :: _ => do
        let LHSo ← do_convert actx fuel a
        let RHSo ← do_convert actx fuel b
        pure (some (AstNode.bvsub (← deref LHSo) (← deref RHSo)))
      | .trunc, a :: _ => do
        let no ← do_convert actx fuel a
        let n ← deref no
        pure (some (AstNode.extract (w - 1) 0 n))
      | .udiv, a :: b :: _ => do
        let LHSo ← do_convert actx fuel a
        let RHSo ← do_convert actx fuel b
        pure (some (AstNode.bvudiv (← deref LHSo) (← deref RHSo)))
      | .urem, a :: b :: _ => do
        let LHSo ← do_convert actx fuel a
        let RHSo ← do_convert actx fuel b
        pure (some (AstNode.bvurem (← deref LHSo) (← deref RHSo)))
      | .xor, a :: b :: _ => do
        let LHSo ← do_convert actx fuel a
        let RHSo ← do_convert actx fuel b
        let LHS ← deref LHSo
        let RHS ← deref RHSo
        if LHS.isLogical && RHS.isLogical then
          pure (some (AstNode.ite (AstNode.lxor LHS RHS) AstContext.bvtrue AstContext.bvfalse))
        else
          pure (some (AstNode.bvxor LHS RHS))
      | .zext, a :: _ => do
        let no ← do_convert actx fuel a
        let n ← deref no
        pure (some (AstNode.zx (w - a.bitWidth) n))
      | .unsupported _, _ =>
        throw (.astLifting "LLVMToTriton::do_convert(): LLVM instruction not supported")
      | _, _ => throw (.ub "Instruction::getOperand: no such operand")
    | .constantInt value width =>
      pure (some (AstNode.bv (getLimitedValue value) width))
    | .argument name _w =>
      match actx.vars name with
      | some n => pure (some n)
      | none => throw (.variableNotFound name)
    | .otherValue _ =>
      throw (.astLifting "LLVMToTriton::do_convert(): LLVM instruction not supported")

/-- An `llvm::Function` as the lifter uses it: its name and the
terminator of its (non-empty) entry block.  `getEntryBlock` /
`getTerminator` on a function without such a block is undefined
behavior in the C++; the structure models the well-formed functions of
the spec's precondition. -/
structure LLVMFunction where
  name : String
  entryTerminator : Value

/-- An `llvm::Module`: a list of named functions,
`getFunction` looking one up by name. -/
structure LLVMModule where
  functions : List LLVMFunction

/-- `llvm::Module::getFunction(fname)`. -/
def LLVMModule.getFunction (m : LLVMModule) (fname : String) : Option LLVMFunction :=
  m.functions.find? (fun f => f.name == fname)

/-- `LLVMToTriton::convert` (llvmToTriton.cpp lines 213-228): look up the
function by name, throw `AstLifting` if absent, otherwise convert the
entry block's terminator. -/
def convert (actx : AstContext) (fuel : Nat) (llvmModule : LLVMModule) (fname : String) :
    Except ConvError (Option AstNode) :=
  match llvmModule.getFunction fname with
  | none =>
    throw (.astLifting "LLVMToTriton::convert(): llvm::Module doesn't contain the given function name")
  | some f => do_convert actx fuel f.entryTerminator

/-- An Expression Context with an empty symbol table, used in concrete
evaluations that involve no arguments. -/
def actxEmpty : AstContext := ⟨fun _ => none⟩

/-- Reduction of bind over a successful `Except` computation. -/
theorem okBind {α : Type} {β : Type} (x : α) (f : α → Except ConvError β) :
    (Except.ok x : Except ConvError α) >>= f = f x := rfl

/-- Reduction of bind over a pure `Except` computation. -/
theorem pureBind {α : Type} {β : Type} (x : α) (f : α → Except ConvError β) :
    (pure x : Except ConvError α) >>= f = f x := rfl

/-- C1: the ten recognized predicates do map 1:1 to distinct builders,
but an ICmp whose predicate code lies outside the enumeration does NOT
raise a translation failure: the switch falls into `default: break` and
`do_convert` returns the local `node` variable, still `nullptr` — i.e.
it returns normally with a null node (the `throw` of "ICmpInst not
supported" below that switch is unreachable, since an instruction of
opcode ICmp always casts to `ICmpInst`).  Evaluated here at predicate
code 42 over two 32-bit constants: the result is `ok none` (a null
node), not an `AstLifting` error. -/
theorem c1_unsupported_predicate_returns_null_node :
    do_convert actxEmpty 2 (.icmpInst 42 [.constantInt 1 32, .constantInt 2 32]) =
      .ok none := by
  decide

/-- C2 counterexample: a 128-bit constant whose stored value is 2^64 is
not lifted to a literal with that value: `getLimitedValue()` saturates
at `UINT64_MAX`, so the built literal holds 2^64 - 1. -/
theorem c2_counterexample :
    do_convert actxEmpty 1 (.constantInt (2 ^ 64) 128) ≠
      .ok (some (.bv (2 ^ 64) 128)) := by
  decide

/-- C2 (amended): for every constant integer, translation returns a
bitvector literal of the constant's declared bit-width; the value is the
stored value taken as-is whenever it fits in 64 bits (in particular for
every declared bit-width up to 64), while a stored value of 2^64 or more
(possible only for widths greater than 64) is saturated to 2^64 - 1 by
`getLimitedValue()`. -/
theorem c2_constant_literal (actx : AstContext) (fuel : Nat) (v w : Nat) :
    (v < 2 ^ 64 →
      do_convert actx (fuel + 1) (.constantInt v w) = .ok (some (.bv v w))) ∧
    (2 ^ 64 ≤ v →
      do_convert actx (fuel + 1) (.constantInt v w) = .ok (some (.bv (2 ^ 64 - 1) w))) := by
  constructor
  · intro h
    have h2 : getLimitedValue v = v := by
      unfold getLimitedValue
      omega
    simp only [do_convert, h2]
    rfl
  · intro h
    have h2 : getLimitedValue v = 2 ^ 64 - 1 := by
      unfold getLimitedValue
      omega
    simp only [do_convert, h2]
    rfl

/-- Witness for C2 (amended): a small value is taken as-is even at width
128; the value 2^64 at width 128 is saturated. -/
theorem c2_constant_literal_witness :
    do_convert actxEmpty 1 (.constantInt 5 128) = .ok (some (.bv 5 128)) ∧
    do_convert actxEmpty 1 (.constantInt (2 ^ 64) 128) =
      .ok (some (.bv (2 ^ 64 - 1) 128)) :=
  ⟨(c2_constant_literal actxEmpty 0 5 128).1 (by norm_num),
   (c2_constant_literal actxEmpty 0 (2 ^ 64) 128).2 (le_refl _)⟩

/-- C3: for AND, OR and XOR, after translating both operands, if both
translated operands are tagged logical the result is a select (ite)
between the bitvector true and false constants over the matching logical
connective; otherwise it is the matching bitwise connective applied
directly to the two translated operands. -/
theorem c3_and_or_xor_disambiguation (actx : AstContext) (fuel : Nat) (w : Nat)
    (a b : Value) (rest : List Value) (la lb : AstNode)
    (ha : do_convert actx fuel a = .ok (some la))
    (hb : do_convert actx fuel b = .ok (some lb)) :
    ((la.isLogical && lb.isLogical) = true →
      do_convert actx (fuel + 1) (.basicInst .and w (a :: b :: rest)) =
        .ok (some (.ite (.land la lb) AstContext.bvtrue AstContext.bvfalse)) ∧
      do_convert actx (fuel + 1) (.basicInst .or w (a :: b :: rest)) =
        .ok (some (.ite (.lor la lb) AstContext.bvtrue AstContext.bvfalse)) ∧
      do_convert actx (fuel + 1) (.basicInst .xor w (a :: b :: rest)) =
        .ok (some (.ite (.lxor la lb) AstContext.bvtrue AstContext.bvfalse))) ∧
    ((la.isLogical && lb.isLogical) = false →
      do_convert actx (fuel + 1) (.basicInst .and w (a :: b :: rest)) =
        .ok (some (.bvand la lb)) ∧
      do_convert actx (fuel + 1) (.basicInst .or w (a :: b :: rest)) =
        .ok (some (.bvor la lb)) ∧
      do_convert actx (fuel + 1) (.basicInst .xor w (a :: b :: rest)) =
        .ok (some (.bvxor la lb))) := by
  constructor
  · intro hlog
    rw [Bool.and_eq_true] at hlog
    refine ⟨?_, ?_, ?_⟩ <;>
      (simp only [do_convert, ha, hb, okBind, deref, pureBind]
       simp [hlog.1, hlog.2]
       rfl)
  · intro hlog
    refine ⟨?_, ?_, ?_⟩ <;>
      (simp only [do_convert, ha, hb, okBind, deref, pureBind]
       simp [hlog]
       rfl)

/-- Witness for C3: an AND of two comparison results (logically typed)
yields the ite-wrapped logical connective; a XOR of two plain constants
yields the direct bitwise connective. -/
theorem c3_and_or_xor_disambiguation_witness :
    do_convert actxEmpty 3
        (.basicInst .and 1
          [.icmpInst 32 [.constantInt 1 8, .constantInt 1 8],
           .icmpInst 33 [.constantInt 1 8, .constantInt 2 8]]) =
      .ok (some (.ite (.land (.equal (.bv 1 8) (.bv 1 8)) (.distinct (.bv 1 8) (.bv 2 8)))
        AstContext.bvtrue AstContext.bvfalse)) ∧
    do_convert actxEmpty 3 (.basicInst .xor 32 [.constantInt 3 32, .constantInt 4 32]) =
      .ok (some (.bvxor (.bv 3 32) (.bv 4 32))) :=
  ⟨((c3_and_or_xor_disambiguation actxEmpty 2 1
      (.icmpInst 32 [.constantInt 1 8, .constantInt 1 8])
      (.icmpInst 33 [.constantInt 1 8, .constantInt 2 8]) []
      (.equal (.bv 1 8) (.bv 1 8)) (.distinct (.bv 1 8) (.bv 2 8))
      (by decide) (by decide)).1 (by decide)).1,
   ((c3_and_or_xor_disambiguation actxEmpty 2 32
      (.constantInt 3 32) (.constantInt 4 32) []
      (.bv 3 32) (.bv 4 32) (by decide) (by decide)).2 (by decide)).2.2⟩

/-- C4: for a select, the condition, then-branch and else-branch are
translated in that order (they occupy those argument positions of the
built node); a condition that is not tagged logical is replaced by an
equality test against the bitvector true constant; the result is the
conditional node over the (possibly repaired) condition and the two
translated branches. -/
theorem c4_select_condition_repair (actx : AstContext) (fuel : Nat) (w : Nat)
    (c t e : Value) (rest : List Value) (nc nt ne : AstNode)
    (hc : do_convert actx fuel c = .ok (some nc))
    (ht : do_convert actx fuel t = .ok (some nt))
    (he : do_convert actx fuel e = .ok (some ne)) :
    (nc.isLogical = true →
      do_convert actx (fuel + 1) (.basicInst .select w (c :: t :: e :: rest)) =
        .ok (some (.ite nc nt ne))) ∧
    (nc.isLogical = false →
      do_convert actx (fuel + 1) (.basicInst .select w (c :: t :: e :: rest)) =
        .ok (some (.ite (.equal nc AstContext.bvtrue) nt ne))) := by
  constructor
  · intro hlog
    simp only [do_convert, hc, ht, he, okBind, deref, pureBind]
    simp [hlog]
    rfl
  · intro hlog
    simp only [do_convert, hc, ht, he, okBind, deref, pureBind]
    simp [hlog]
    rfl

/-- Witness for C4: a select over a comparison condition builds the
conditional directly; a select whose condition was folded to the raw
constant 1 of width 1 gets the synthesized equality-against-true
condition. -/
theorem c4_select_condition_repair_witness :
    do_convert actxEmpty 3
        (.basicInst .select 32
          [.icmpInst 32 [.constantInt 0 8, .constantInt 0 8],
           .constantInt 1 32, .constantInt 2 32]) =
      .ok (some (.ite (.equal (.bv 0 8) (.bv 0 8)) (.bv 1 32) (.bv 2 32))) ∧
    do_convert actxEmpty 2
        (.basicInst .select 32 [.constantInt 1 1, .constantInt 1 32, .constantInt 2 32]) =
      .ok (some (.ite (.equal (.bv 1 1) AstContext.bvtrue) (.bv 1 32) (.bv 2 32))) :=
  ⟨(c4_select_condition_repair actxEmpty 2 32
      (.icmpInst 32 [.constantInt 0 8, .constantInt 0 8])
      (.constantInt 1 32) (.constantInt 2 32) []
      (.equal (.bv 0 8) (.bv 0 8)) (.bv 1 32) (.bv 2 32)
      (by decide) (by decide) (by decide)).1 (by decide),
   (c4_select_condition_repair actxEmpty 1 32
      (.constantInt 1 1) (.constantInt 1 32) (.constantInt 2 32) []
      (.bv 1 1) (.bv 1 32) (.bv 2 32) rfl rfl rfl).2 (by decide)⟩

/-- C5: SExt and ZExt with result width W and operand source width w
apply the extension builder with exactly W - w extension bits to the
translated operand; Trunc with result width W extracts the bit range
[W-1:0] of the translated operand.  The width hypotheses record the
spec's implicit preconditions (W >= w for extensions, W >= 1 for any
LLVM integer type), under which the embedding's Nat subtraction agrees
with the C++ unsigned subtraction. -/
theorem c5_width_changing_ops (actx : AstContext) (fuel : Nat) (W : Nat)
    (a : Value) (rest : List Value) (n : AstNode)
    (ha : do_convert actx fuel a = .ok (some n)) :
    (a.bitWidth ≤ W →
      do_convert actx (fuel + 1) (.basicInst .sext W (a :: rest)) =
        .ok (some (.sx (W - a.bitWidth) n)) ∧
      do_convert actx (fuel + 1) (.basicInst .zext W (a :: rest)) =
        .ok (some (.zx (W - a.bitWidth) n))) ∧
    (1 ≤ W →
      do_convert actx (fuel + 1) (.basicInst .trunc W (a :: rest)) =
        .ok (some (.extract (W - 1) 0 n))) := by
  refine ⟨fun _hW => ⟨?_, ?_⟩, fun _hW => ?_⟩ <;>
    (simp only [do_convert, ha, okBind, deref, pureBind]
     rfl)

/-- Witness for C5: extending an 8-bit operand to 32 bits uses 24
extension bits; truncating a 32-bit operand to 8 bits extracts [7:0]. -/
theorem c5_width_changing_ops_witness :
    (do_convert actxEmpty 2 (.basicInst .sext 32 [.constantInt 7 8]) =
        .ok (some (.sx 24 (.bv 7 8))) ∧
      do_convert actxEmpty 2 (.basicInst .zext 32 [.constantInt 7 8]) =
        .ok (some (.zx 24 (.bv 7 8)))) ∧
    do_convert actxEmpty 2 (.basicInst .trunc 8 [.constantInt 7 32]) =
      .ok (some (.extract 7 0 (.bv 7 32))) :=
  ⟨(c5_width_changing_ops actxEmpty 1 32 (.constantInt 7 8) [] (.bv 7 8) rfl).1
      (by decide),
   (c5_width_changing_ops actxEmpty 1 8 (.constantInt 7 32) [] (.bv 7 32) rfl).2
      (by decide)⟩

/-- C6: a call whose (direct) callee name contains the byte-swap marker
"llvm.bswap.i" is translated to a single unary byte-swap node over the
translation of the call's first argument; a call to any other callee
raises the AstLifting failure "LLVM call not supported" and produces no
node. -/
theorem c6_call_whitelist (actx : AstContext) (fuel : Nat) (callee : String) (w : Nat) :
    (∀ a0 : Value, ∀ rest : List Value, ∀ n : AstNode,
      nameFind callee bswapMarker = true →
      do_convert actx fuel a0 = .ok (some n) →
      do_convert actx (fuel + 1) (.callInst callee w (a0 :: rest)) =
        .ok (some (.bswap n))) ∧
    (∀ args : List Value,
      nameFind callee bswapMarker = false →
      do_convert actx (fuel + 1) (.callInst callee w args) =
        .error (.astLifting "LLVMToTriton::do_convert(): LLVM call not supported")) := by
  constructor
  · intro a0 rest n hname ha
    simp only [do_convert, hname, ha, okBind, deref, pureBind]
    rfl
  · intro args hname
    simp only [do_convert, hname]
    rfl

/-- Witness for C6: `llvm.bswap.i32` over a 32-bit constant becomes a
byte-swap node; a call to `memcpy` fails. -/
theorem c6_call_whitelist_witness :
    do_convert actxEmpty 2 (.callInst "llvm.bswap.i32" 32 [.constantInt 7 32]) =
      .ok (some (.bswap (.bv 7 32))) ∧
    do_convert actxEmpty 2 (.callInst "memcpy" 32 [.constantInt 7 32]) =
      .error (.astLifting "LLVMToTriton::do_convert(): LLVM call not supported") :=
  ⟨(c6_call_whitelist actxEmpty 1 "llvm.bswap.i32" 32).1
      (.constantInt 7 32) [] (.bv 7 32) (by decide) rfl,
   (c6_call_whitelist actxEmpty 1 "memcpy" 32).2
      [.constantInt 7 32] (by decide)⟩

/-- C7: `convert` raises the AstLifting failure "doesn't contain the
given function name" when the module has no function of the requested
name; otherwise, when the named function's entry block terminator is a
return instruction, the result of `convert` is exactly the translation
of the return's operand 0 (the Ret case returns it unchanged as the root
of the whole conversion). -/
theorem c7_convert_root (actx : AstContext) (fuel : Nat) (m : LLVMModule) (fname : String) :
    (m.getFunction fname = none →
      convert actx fuel m fname =
        .error (.astLifting "LLVMToTriton::convert(): llvm::Module doesn't contain the given function name")) ∧
    (∀ f : LLVMFunction, ∀ w : Nat, ∀ x : Value, ∀ rest : List Value,
      m.getFunction fname = some f →
      f.entryTerminator = .basicInst .ret w (x :: rest) →
      convert actx (fuel + 1) m fname = do_convert actx fuel x) := by
  constructor
  · intro h
    simp only [convert, h]
    rfl
  · intro f w x rest h1 h2
    simp only [convert, h1, h2]
    rfl

/-- Witness for C7: an empty module fails; a module whose function `f`
returns the 32-bit constant 5 converts to the translation of that
constant. -/
theorem c7_convert_root_witness :
    convert actxEmpty 1 (LLVMModule.mk []) "f" =
      .error (.astLifting "LLVMToTriton::convert(): llvm::Module doesn't contain the given function name") ∧
    convert actxEmpty 2
        (LLVMModule.mk [⟨"f", .basicInst .ret 32 [.constantInt 5 32]⟩]) "f" =
      do_convert actxEmpty 1 (.constantInt 5 32) :=
  ⟨(c7_convert_root actxEmpty 1 (LLVMModule.mk []) "f").1 rfl,
   (c7_convert_root actxEmpty 1
      (LLVMModule.mk [⟨"f", .basicInst .ret 32 [.constantInt 5 32]⟩]) "f").2
      ⟨"f", .basicInst .ret 32 [.constantInt 5 32]⟩ 32 (.constantInt 5 32) [] rfl rfl⟩

/-- C8: a value that is none of argument / constant integer / supported
instruction is rejected with the terminal AstLifting failure "LLVM
instruction not supported" and no tree is produced: this covers any
instruction with an unsupported opcode (the switch's default case) and
any unrecognized value shape (the fall-through throw after all the
dyn_casts fail). -/
theorem c8_unsupported_rejection (actx : AstContext) (fuel : Nat) :
    (∀ desc : String,
      do_convert actx (fuel + 1) (.otherValue desc) =
        .error (.astLifting "LLVMToTriton::do_convert(): LLVM instruction not supported")) ∧
    (∀ code : Nat, ∀ w : Nat, ∀ ops : List Value,
      do_convert actx (fuel + 1) (.basicInst (.unsupported code) w ops) =
        .error (.astLifting "LLVMToTriton::do_convert(): LLVM instruction not supported")) := by
  constructor
  · intro desc
    rfl
  · intro code w ops
    simp only [do_convert]
    rfl

/-- C9: each of the ten binary arithmetic/shift opcodes translates
operand 0 and operand 1 (in that fixed left-to-right order, operand 0
becoming the left child) and applies the matching binary bitvector
builder to the two translated operands, with no special cases. -/
theorem c9_binary_arith_shift (actx : AstContext) (fuel : Nat) (w : Nat)
    (a b : Value) (rest : List Value) (la lb : AstNode)
    (ha : do_convert actx fuel a = .ok (some la))
    (hb : do_convert actx fuel b = .ok (some lb)) :
    do_convert actx (fuel + 1) (.basicInst .add w (a :: b :: rest)) =
      .ok (some (.bvadd la lb)) ∧
    do_convert actx (fuel + 1) (.basicInst .sub w (a :: b :: rest)) =
      .ok (some (.bvsub la lb)) ∧
    do_convert actx (fuel + 1) (.basicInst .mul w (a :: b :: rest)) =
      .ok (some (.bvmul la lb)) ∧
    do_convert actx (fuel + 1) (.basicInst .sdiv w (a :: b :: rest)) =
      .ok (some (.bvsdiv la lb)) ∧
    do_convert actx (fuel + 1) (.basicInst .udiv w (a :: b :: rest)) =
      .ok (some (.bvudiv la lb)) ∧
    do_convert actx (fuel + 1) (.basicInst .srem w (a :: b :: rest)) =
      .ok (some (.bvsrem la lb)) ∧
    do_convert actx (fuel + 1) (.basicInst .urem w (a :: b :: rest)) =
      .ok (some (.bvurem la lb)) ∧
    do_convert actx (fuel + 1) (.basicInst .lshr w (a :: b :: rest)) =
      .ok (some (.bvlshr la lb)) ∧
    do_convert actx (fuel + 1) (.basicInst .ashr w (a :: b :: rest)) =
      .ok (some (.bvashr la lb)) ∧
    do_convert actx (fuel + 1) (.basicInst .shl w (a :: b :: rest)) =
      .ok (some (.bvshl la lb)) := by
  refine ⟨?_, ?_, ?_, ?_, ?_, ?_, ?_, ?_, ?_, ?_⟩ <;>
    (simp only [do_convert, ha, hb, okBind, deref, pureBind]
     rfl)

/-- Witness for C9: all ten opcodes evaluated over the 32-bit constants
3 and 4. -/
theorem c9_binary_arith_shift_witness :
    do_convert actxEmpty 2 (.basicInst .add 32 [.constantInt 3 32, .constantInt 4 32]) =
      .ok (some (.bvadd (.bv 3 32) (.bv 4 32))) ∧
    do_convert actxEmpty 2 (.basicInst .sub 32 [.constantInt 3 32, .constantInt 4 32]) =
      .ok (some (.bvsub (.bv 3 32) (.bv 4 32))) ∧
    do_convert actxEmpty 2 (.basicInst .mul 32 [.constantInt 3 32, .constantInt 4 32]) =
      .ok (some (.bvmul (.bv 3 32) (.bv 4 32))) ∧
    do_convert actxEmpty 2 (.basicInst .sdiv 32 [.constantInt 3 32, .constantInt 4 32]) =
      .ok (some (.bvsdiv (.bv 3 32) (.bv 4 32))) ∧
    do_convert actxEmpty 2 (.basicInst .udiv 32 [.constantInt 3 32, .constantInt 4 32]) =
      .ok (some (.bvudiv (.bv 3 32) (.bv 4 32))) ∧
    do_convert actxEmpty 2 (.basicInst .srem 32 [.constantInt 3 32, .constantInt 4 32]) =
      .ok (some (.bvsrem (.bv 3 32) (.bv 4 32))) ∧
    do_convert actxEmpty 2 (.basicInst .urem 32 [.constantInt 3 32, .constantInt 4 32]) =
      .ok (some (.bvurem (.bv 3 32) (.bv 4 32))) ∧
    do_convert actxEmpty 2 (.basicInst .lshr 32 [.constantInt 3 32, .constantInt 4 32]) =
      .ok (some (.bvlshr (.bv 3 32) (.bv 4 32))) ∧
    do_convert actxEmpty 2 (.basicInst .ashr 32 [.constantInt 3 32, .constantInt 4 32]) =
      .ok (some (.bvashr (.bv 3 32) (.bv 4 32))) ∧
    do_convert actxEmpty 2 (.basicInst .shl 32 [.constantInt 3 32, .constantInt 4 32]) =
      .ok (some (.bvshl (.bv 3 32) (.bv 4 32))) :=
  c9_binary_arith_shift actxEmpty 1 32 (.constantInt 3 32) (.constantInt 4 32) []
    (.bv 3 32) (.bv 4 32) rfl rfl

/-- C10: for a whitelisted byte-swap call, only `getOperand(0)` is ever
read: the result is identical for any list of extra arguments (which are
never translated), and translation succeeds with a byte-swap node as
soon as the first argument translates. -/
theorem c10_extra_call_args_ignored (actx : AstContext) (fuel : Nat)
    (callee : String) (w : Nat) (a0 : Value) (rest rest2 : List Value)
    (hname : nameFind callee bswapMarker = true) :
    do_convert actx (fuel + 1) (.callInst callee w (a0 :: rest)) =
      do_convert actx (fuel + 1) (.callInst callee w (a0 :: rest2)) ∧
    (∀ n : AstNode,
      do_convert actx fuel a0 = .ok (some n) →
      do_convert actx (fuel + 1) (.callInst callee w (a0 :: rest)) =
        .ok (some (.bswap n))) := by
  constructor
  · simp only [do_convert, hname]
  · intro n ha
    simp only [do_convert, hname, ha, okBind, deref, pureBind]
    rfl

/-- Witness for C10: a byte-swap call with a second, untranslatable
argument still converts to the byte-swap of its first argument. -/
theorem c10_extra_call_args_ignored_witness :
    do_convert actxEmpty 2
        (.callInst "llvm.bswap.i32" 32 [.constantInt 7 32, .otherValue "fp constant"]) =
      .ok (some (.bswap (.bv 7 32))) :=
  (c10_extra_call_args_ignored actxEmpty 1 "llvm.bswap.i32" 32
    (.constantInt 7 32) [.otherValue "fp constant"] [] (by decide)).2
    (.bv 7 32) rfl

end LLVMToTriton
